import Mathlib

/-!
Verification of the paper-trading ledger and risk gate of the
polymarket-agent-papertrading repository.

The TypeScript engine (`src/engine/balance.ts`, `src/engine/positions.ts`,
`src/engine/trades.ts`, `src/engine/portfolio.ts`) and the agent strategy
layer (`src/agent/risk.ts`, `src/agent/analyzer.ts`) are shallowly embedded
here:

* JavaScript numbers are modelled as exact rationals (`ℚ`); all arithmetic in
  the source is elementary (+, -, *, /) and the stated properties are about
  its exact algebra.
* `Date` values are modelled as milliseconds-since-epoch (`ℕ`); the sources of
  nondeterminism (`new Date()`, `uuidv4()`) are threaded as explicit
  parameters of the operations that use them.
* The JS `Map` used by `PositionTracker` is modelled as an association list
  with insertion-order semantics (`jsMapGet` / `jsMapSet` / `jsMapDelete`
  mirror `Map.get` / `Map.set` / `Map.delete`).
* Class instances become explicit state records; a mutating method becomes a
  function from the old state to the new state (plus its return value).
-/

namespace PaperTrading

/-! ## JS `Map` semantics over association lists

`Map.get` returns the (unique) entry for a key; `Map.set` overwrites an
existing entry in place, preserving insertion order, or appends a new one;
`Map.delete` removes the entry.  Keys inserted through these operations are
always unique, so acting on the first occurrence is exact. -/

def jsMapGet {κ β : Type} [DecidableEq κ] : List (κ × β) → κ → Option β
  | [], _ => none
  | e :: rest, k => if e.1 = k then some e.2 else jsMapGet rest k

def jsMapSet {κ β : Type} [DecidableEq κ] : List (κ × β) → κ → β → List (κ × β)
  | [], k, v => [(k, v)]
  | e :: rest, k, v => if e.1 = k then (k, v) :: rest else e :: jsMapSet rest k v

def jsMapDelete {κ β : Type} [DecidableEq κ] : List (κ × β) → κ → List (κ × β)
  | [], _ => []
  | e :: rest, k => if e.1 = k then rest else e :: jsMapDelete rest k

/-- The `jsMapSet` keyed by an explicit boolean comparison (for `Map`s whose
keys are arbitrary runtime values, compared by SameValueZero). -/
def jsMapSetBy {κ β : Type} (eqk : κ → κ → Bool) :
    List (κ × β) → κ → β → List (κ × β)
  | [], k, v => [(k, v)]
  | e :: rest, k, v =>
      if eqk e.1 k then (k, v) :: rest else e :: jsMapSetBy eqk rest k v

/-! ## Data model (src/engine/types.ts) -/

/-- Trade / order side: `'BUY' | 'SELL'`. -/
inductive Side where
  | BUY
  | SELL
deriving DecidableEq, Repr

/-- The `VirtualBalance` (engine/types.ts). `lastUpdated` is a `Date`, modelled
as milliseconds since the epoch. -/
structure VirtualBalance where
  cash : ℚ
  totalValue : ℚ
  initialBalance : ℚ
  lastUpdated : ℕ
deriving DecidableEq, Repr

/-- The `Position` (engine/types.ts). -/
structure Position where
  id : String
  marketId : String
  marketQuestion : String
  tokenId : String
  outcome : String
  shares : ℚ
  avgPrice : ℚ
  currentPrice : ℚ
  unrealizedPnL : ℚ
  openedAt : ℕ
deriving DecidableEq, Repr

/-- The `Trade` (engine/types.ts). `realizedPnL?` is optional: it is present on
SELL trades and absent on BUY trades. -/
structure Trade where
  id : String
  timestamp : ℕ
  marketId : String
  marketQuestion : String
  tokenId : String
  outcome : String
  side : Side
  shares : ℚ
  price : ℚ
  totalCost : ℚ
  fees : ℚ
  realizedPnL : Option ℚ
deriving DecidableEq, Repr

/-- The `OrderRequest` (engine/types.ts). -/
structure OrderRequest where
  marketId : String
  marketQuestion : String
  tokenId : String
  outcome : String
  side : Side
  shares : ℚ
  price : ℚ
deriving DecidableEq, Repr

/-- The `OrderResult` (engine/types.ts). -/
structure OrderResult where
  success : Bool
  trade : Option Trade
  error : Option String
  newBalance : Option ℚ
deriving DecidableEq, Repr

/-- The `PortfolioSummary` (engine/types.ts). -/
structure PortfolioSummary where
  cash : ℚ
  positionsValue : ℚ
  totalValue : ℚ
  totalPnL : ℚ
  totalPnLPercent : ℚ
  positionCount : ℕ
  tradeCount : ℕ
  winRate : ℚ
deriving DecidableEq, Repr

/-! ## Number formatting

The engine embeds numbers into error strings via JS template literals and
`Number.prototype.toFixed`.  No claim depends on the exact decimal rendering,
so the embedding renders the exact rational: what matters (and is preserved)
is which numbers appear in which message. -/

/-- JS number-to-string conversion as used in template literals: an injective
exact rendering of the rational (numerator and denominator in decimal). -/
def numToString (q : ℚ) : String :=
  toString q.num ++ "/" ++ toString q.den

/-- JS `x.toFixed(2)` (two-decimal rendering; the decimal rendering itself is
abstracted, see `numToString`). -/
def toFixed2 (q : ℚ) : String := numToString q

/-- JS `x.toFixed(1)`. -/
def toFixed1 (q : ℚ) : String := numToString q

/-! ## BalanceManager (src/engine/balance.ts)

The class owns one `VirtualBalance`; its methods become functions on that
record.  `now` stands for `new Date()` at the call. -/

namespace BalanceManager

/-- The `canAfford(amount)`: `this.balance.cash >= amount`. -/
def canAfford (b : VirtualBalance) (amount : ℚ) : Bool :=
  b.cash ≥ amount

/-- The `deductCash(amount)`: all-or-nothing deduction; returns the success flag
and the new balance record. -/
def deductCash (b : VirtualBalance) (amount : ℚ) (now : ℕ) :
    Bool × VirtualBalance :=
  if ¬ canAfford b amount then
    (false, b)
  else
    (true, { b with cash := b.cash - amount, lastUpdated := now })

/-- The `addCash(amount)`. -/
def addCash (b : VirtualBalance) (amount : ℚ) (now : ℕ) : VirtualBalance :=
  { b with cash := b.cash + amount, lastUpdated := now }

/-- The `updateTotalValue(positionsValue)`. -/
def updateTotalValue (b : VirtualBalance) (positionsValue : ℚ) (now : ℕ) :
    VirtualBalance :=
  { b with totalValue := b.cash + positionsValue, lastUpdated := now }

/-- The `reset()`. -/
def reset (b : VirtualBalance) (now : ℕ) : VirtualBalance :=
  { cash := b.initialBalance, totalValue := b.initialBalance,
    initialBalance := b.initialBalance, lastUpdated := now }

end BalanceManager

/-! ## PositionTracker (src/engine/positions.ts)

The class owns `private positions: Map<string, Position>`; modelled as an
association list `PositionMap` under the JS `Map` operations above. -/

/-- The tracker's owned state. -/
abbrev PositionMap := List (String × Position)

namespace PositionTracker

/-- The composite key `` `${marketId}-${outcome}` ``. -/
def posKey (marketId outcome : String) : String :=
  marketId ++ "-" ++ outcome

/-- The `getPosition(marketId, outcome)`. -/
def getPosition (ps : PositionMap) (marketId outcome : String) :
    Option Position :=
  jsMapGet ps (posKey marketId outcome)

/-- The `hasPosition(marketId, outcome)`. -/
def hasPosition (ps : PositionMap) (marketId outcome : String) : Bool :=
  (getPosition ps marketId outcome).isSome

/-- The `getPositionSize(marketId, outcome)`: `position?.shares || 0`. -/
def getPositionSize (ps : PositionMap) (marketId outcome : String) : ℚ :=
  match getPosition ps marketId outcome with
  | some p => p.shares
  | none => 0

/-- The `addPosition(order, shares, price)`.  `newId` stands for `uuidv4()` and
`now` for `new Date()` when a fresh position is created.  Returns the
position the method returns together with the updated map. -/
def addPosition (ps : PositionMap) (order : OrderRequest) (shares price : ℚ)
    (newId : String) (now : ℕ) : Position × PositionMap :=
  let key := posKey order.marketId order.outcome
  match jsMapGet ps key with
  | some existing =>
      let totalShares := existing.shares + shares
      let totalCost := existing.shares * existing.avgPrice + shares * price
      let newAvgPrice := totalCost / totalShares
      let updated : Position :=
        { existing with
            shares := totalShares
            avgPrice := newAvgPrice
            currentPrice := price
            unrealizedPnL := (price - newAvgPrice) * totalShares }
      (updated, jsMapSet ps key updated)
  | none =>
      let position : Position :=
        { id := newId
          marketId := order.marketId
          marketQuestion := order.marketQuestion
          tokenId := order.tokenId
          outcome := order.outcome
          shares := shares
          avgPrice := price
          currentPrice := price
          unrealizedPnL := 0
          openedAt := now }
      (position, jsMapSet ps key position)

/-- The record returned by `reducePosition`. -/
structure ReduceResult where
  success : Bool
  realizedPnL : ℚ
  remainingShares : ℚ
deriving DecidableEq, Repr

/-- The `reducePosition(marketId, outcome, shares, sellPrice)`. -/
def reducePosition (ps : PositionMap) (marketId outcome : String)
    (shares sellPrice : ℚ) : ReduceResult × PositionMap :=
  let key := posKey marketId outcome
  match jsMapGet ps key with
  | none =>
      ({ success := false, realizedPnL := 0, remainingShares := 0 }, ps)
  | some position =>
      if position.shares < shares then
        ({ success := false, realizedPnL := 0,
           remainingShares := position.shares }, ps)
      else
        let realizedPnL := (sellPrice - position.avgPrice) * shares
        let newShares := position.shares - shares
        if newShares ≤ 0 then
          ({ success := true, realizedPnL := realizedPnL,
             remainingShares := 0 }, jsMapDelete ps key)
        else
          let updated : Position :=
            { position with
                shares := newShares
                currentPrice := sellPrice
                unrealizedPnL := (sellPrice - position.avgPrice) * newShares }
          ({ success := true, realizedPnL := realizedPnL,
             remainingShares := newShares }, jsMapSet ps key updated)

/-- The `updatePrices(prices)`. -/
def updatePrices (ps : PositionMap) (prices : List (String × ℚ)) :
    PositionMap :=
  ps.map fun e =>
    match jsMapGet prices e.2.tokenId with
    | some price =>
        (e.1, { e.2 with
                  currentPrice := price
                  unrealizedPnL := (price - e.2.avgPrice) * e.2.shares })
    | none => e

/-- The `getTotalValue()`. -/
def getTotalValue (ps : PositionMap) : ℚ :=
  (ps.map fun e => e.2.shares * e.2.currentPrice).sum

/-- The `getPositionCount()`. -/
def getPositionCount (ps : PositionMap) : ℕ := ps.length

end PositionTracker

/-! ## TradeExecutor (src/engine/trades.ts)

The executor mutates the balance and the position map and appends to its
trade history; the combined mutable state is `EngineState`.  The call-site
nondeterminism (`uuidv4()` for the trade id and a possible fresh position id,
`new Date()`) is an explicit `ExecEnv`. -/

/-- Combined state owned by BalanceManager + PositionTracker + TradeExecutor. -/
structure EngineState where
  balance : VirtualBalance
  positions : PositionMap
  history : List Trade
deriving DecidableEq, Repr

/-- Per-call environment: the `new Date()` timestamp and the fresh uuids
drawn during one `execute` call. -/
structure ExecEnv where
  now : ℕ
  tradeId : String
  posId : String
deriving DecidableEq, Repr

namespace TradeExecutor

/-- The `FEE_RATE = 0.001`. -/
def FEE_RATE : ℚ := 0.001

/-- The buy-rejection message
`` `Insufficient funds. Need $X, have $Y` `` (trades.ts line 46). -/
def insufficientFundsMsg (need cur : ℚ) : String :=
  "Insufficient funds. Need $" ++ toFixed2 need ++ ", have $" ++ toFixed2 cur

/-- The sell-rejection message
`` `Insufficient shares. Have X, trying to sell Y` `` (trades.ts line 90). -/
def insufficientSharesMsg (held requested : ℚ) : String :=
  "Insufficient shares. Have " ++ numToString held ++
    ", trying to sell " ++ numToString requested

/-- The `executeBuy(order)` (trades.ts lines 37-78). -/
def executeBuy (s : EngineState) (order : OrderRequest) (env : ExecEnv) :
    OrderResult × EngineState :=
  let totalCost := order.shares * order.price
  let fees := totalCost * FEE_RATE
  let totalWithFees := totalCost + fees
  if ¬ BalanceManager.canAfford s.balance totalWithFees then
    ({ success := false, trade := none,
       error := some (insufficientFundsMsg totalWithFees s.balance.cash),
       newBalance := none }, s)
  else
    let balance := (BalanceManager.deductCash s.balance totalWithFees env.now).2
    let positions :=
      (PositionTracker.addPosition s.positions order order.shares order.price
        env.posId env.now).2
    let trade : Trade :=
      { id := env.tradeId
        timestamp := env.now
        marketId := order.marketId
        marketQuestion := order.marketQuestion
        tokenId := order.tokenId
        outcome := order.outcome
        side := Side.BUY
        shares := order.shares
        price := order.price
        totalCost := totalCost
        fees := fees
        realizedPnL := none }
    ({ success := true, trade := some trade, error := none,
       newBalance := some balance.cash },
     { balance := balance, positions := positions,
       history := s.history ++ [trade] })

/-- The `executeSell(order)` (trades.ts lines 83-140). -/
def executeSell (s : EngineState) (order : OrderRequest) (env : ExecEnv) :
    OrderResult × EngineState :=
  let positionSize :=
    PositionTracker.getPositionSize s.positions order.marketId order.outcome
  if positionSize < order.shares then
    ({ success := false, trade := none,
       error := some (insufficientSharesMsg positionSize order.shares),
       newBalance := none }, s)
  else
    let rp := PositionTracker.reducePosition s.positions order.marketId
      order.outcome order.shares order.price
    if ¬ rp.1.success then
      ({ success := false, trade := none,
         error := some "Failed to reduce position", newBalance := none },
       { s with positions := rp.2 })
    else
      let totalProceeds := order.shares * order.price
      let fees := totalProceeds * FEE_RATE
      let netProceeds := totalProceeds - fees
      let balance := BalanceManager.addCash s.balance netProceeds env.now
      let trade : Trade :=
        { id := env.tradeId
          timestamp := env.now
          marketId := order.marketId
          marketQuestion := order.marketQuestion
          tokenId := order.tokenId
          outcome := order.outcome
          side := Side.SELL
          shares := order.shares
          price := order.price
          totalCost := totalProceeds
          fees := fees
          realizedPnL := some rp.1.realizedPnL }
      ({ success := true, trade := some trade, error := none,
         newBalance := some balance.cash },
       { balance := balance, positions := rp.2,
         history := s.history ++ [trade] })

/-- The `execute(order)` (trades.ts lines 26-32). -/
def execute (s : EngineState) (order : OrderRequest) (env : ExecEnv) :
    OrderResult × EngineState :=
  match order.side with
  | Side.BUY => executeBuy s order env
  | Side.SELL => executeSell s order env

/-- Run a sequence of `execute` calls, collecting each order's result. -/
def runTrace (s : EngineState) :
    List (OrderRequest × ExecEnv) →
      EngineState × List (OrderRequest × OrderResult)
  | [] => (s, [])
  | (o, env) :: rest =>
      let r := execute s o env
      let tl := runTrace r.2 rest
      (tl.1, (o, r.1) :: tl.2)

/-- Sum of `totalWithFees = shares × price × 1.001` over the successful BUY
steps of a result trace. -/
def sumBuyCosts (l : List (OrderRequest × OrderResult)) : ℚ :=
  (l.map fun e =>
    if e.2.success ∧ e.1.side = Side.BUY then
      e.1.shares * e.1.price * 1.001
    else 0).sum

/-- Sum of `netProceeds = shares × price × 0.999` over the successful SELL
steps of a result trace. -/
def sumSellProceeds (l : List (OrderRequest × OrderResult)) : ℚ :=
  (l.map fun e =>
    if e.2.success ∧ e.1.side = Side.SELL then
      e.1.shares * e.1.price * 0.999
    else 0).sum

end TradeExecutor

/-! ## Agent data model (src/agent/types.ts, src/api/types.ts)

`EnrichedMarket` carries many fields; the analyzer and risk gate read only
`condition_id`, `question`, `yesPrice` and `noPrice`, so the embedding keeps
those. -/

/-- The market snapshot fields read by the analyzer and the risk gate. -/
structure EnrichedMarket where
  condition_id : String
  question : String
  yesPrice : ℚ
  noPrice : ℚ
deriving DecidableEq, Repr

/-- The `MarketAnalysis.signal`:
`'BUY_YES' | 'BUY_NO' | 'SELL_YES' | 'SELL_NO' | 'HOLD' | 'DCA'`. -/
inductive Signal where
  | BUY_YES
  | BUY_NO
  | SELL_YES
  | SELL_NO
  | HOLD
  | DCA
deriving DecidableEq, Repr

/-- The `analysis.signal.includes('YES')`: string containment of `"YES"` in the
signal's literal. -/
def Signal.includesYES : Signal → Bool
  | Signal.BUY_YES => true
  | Signal.SELL_YES => true
  | _ => false

/-- The `MarketAnalysis` (agent/types.ts). -/
structure MarketAnalysis where
  market : EnrichedMarket
  signal : Signal
  confidence : ℚ
  reason : String
  suggestedSize : ℚ
deriving DecidableEq, Repr

/-- The `AgentConfig` fields read by `RiskManager`. -/
structure AgentConfig where
  maxPositionSize : ℚ
  maxPositions : ℕ
  minConfidence : ℚ
deriving DecidableEq, Repr

/-- The `StrategyType` (agent/types.ts). -/
inductive StrategyType where
  | momentum
  | contrarian
  | value
  | random
  | balanced
  | llm
deriving DecidableEq, Repr

/-! ## MarketAnalyzer (src/agent/analyzer.ts)

All strategies are pure except `random`, whose single `Math.random()` draw is
threaded as the explicit parameter `rand`. -/

namespace MarketAnalyzer

/-- The `calculateSize(strength)` (analyzer.ts lines 262-267). -/
def calculateSize (strength : ℚ) : ℚ :=
  max 10 (min 500 (100 * |strength| * 5))

/-- The `analyzeMomentum(market)` (analyzer.ts lines 75-105). -/
def analyzeMomentum (market : EnrichedMarket) : MarketAnalysis :=
  if market.yesPrice > 0.6 then
    { market := market, signal := Signal.BUY_YES
      confidence := min market.yesPrice 0.9
      reason := "Strong YES momentum (" ++ toFixed1 (market.yesPrice * 100) ++ "%)"
      suggestedSize := calculateSize (market.yesPrice - 0.5) }
  else if market.noPrice > 0.6 then
    { market := market, signal := Signal.BUY_NO
      confidence := min market.noPrice 0.9
      reason := "Strong NO momentum (" ++ toFixed1 (market.noPrice * 100) ++ "%)"
      suggestedSize := calculateSize (market.noPrice - 0.5) }
  else
    { market := market, signal := Signal.HOLD, confidence := 0.3
      reason := "No clear momentum signal", suggestedSize := 0 }

/-- The `analyzeContrarian(market)` (analyzer.ts lines 111-141). -/
def analyzeContrarian (market : EnrichedMarket) : MarketAnalysis :=
  if market.yesPrice < 0.25 ∧ market.yesPrice > 0.05 then
    { market := market, signal := Signal.BUY_YES, confidence := 0.6
      reason := "Contrarian YES play - undervalued at " ++
        toFixed1 (market.yesPrice * 100) ++ "%"
      suggestedSize := calculateSize (0.25 - market.yesPrice) }
  else if market.noPrice < 0.25 ∧ market.noPrice > 0.05 then
    { market := market, signal := Signal.BUY_NO, confidence := 0.6
      reason := "Contrarian NO play - undervalued at " ++
        toFixed1 (market.noPrice * 100) ++ "%"
      suggestedSize := calculateSize (0.25 - market.noPrice) }
  else
    { market := market, signal := Signal.HOLD, confidence := 0.3
      reason := "No contrarian opportunity", suggestedSize := 0 }

/-- The `analyzeValue(market)` (analyzer.ts lines 146-170). -/
def analyzeValue (market : EnrichedMarket) : MarketAnalysis :=
  if |market.yesPrice - 0.5| < 0.15 then
    let signal := if market.yesPrice < 0.5 then Signal.BUY_YES else Signal.BUY_NO
    { market := market, signal := signal, confidence := 0.55
      reason := "Value play in balanced market (" ++
        toFixed1 (market.yesPrice * 100) ++ "% YES)"
      suggestedSize := calculateSize 0.1 }
  else
    { market := market, signal := Signal.HOLD, confidence := 0.3
      reason := "Market not in value zone", suggestedSize := 0 }

/-- The `analyzeRandom(market)` (analyzer.ts lines 175-203); `rand` is the
`Math.random()` draw. -/
def analyzeRandom (market : EnrichedMarket) (rand : ℚ) : MarketAnalysis :=
  if rand < 0.3 then
    { market := market, signal := Signal.BUY_YES, confidence := 0.5
      reason := "Random YES selection", suggestedSize := calculateSize 0.2 }
  else if rand < 0.6 then
    { market := market, signal := Signal.BUY_NO, confidence := 0.5
      reason := "Random NO selection", suggestedSize := calculateSize 0.2 }
  else
    { market := market, signal := Signal.HOLD, confidence := 0.5
      reason := "Random hold decision", suggestedSize := 0 }

/-- The `analyzeBalanced(market)` (analyzer.ts lines 208-257). -/
def analyzeBalanced (market : EnrichedMarket) : MarketAnalysis :=
  if market.yesPrice > 0.7 then
    { market := market, signal := Signal.BUY_YES, confidence := 0.7
      reason := "Balanced: Strong YES probability (" ++
        toFixed1 (market.yesPrice * 100) ++ "%)"
      suggestedSize := calculateSize (market.yesPrice - 0.5) }
  else if market.noPrice > 0.7 then
    { market := market, signal := Signal.BUY_NO, confidence := 0.7
      reason := "Balanced: Strong NO probability (" ++
        toFixed1 (market.noPrice * 100) ++ "%)"
      suggestedSize := calculateSize (market.noPrice - 0.5) }
  else if market.yesPrice < 0.2 ∧ market.yesPrice > 0.05 then
    { market := market, signal := Signal.BUY_YES, confidence := 0.5
      reason := "Balanced: Contrarian YES at " ++
        toFixed1 (market.yesPrice * 100) ++ "%"
      suggestedSize := calculateSize 0.15 }
  else if market.noPrice < 0.2 ∧ market.noPrice > 0.05 then
    { market := market, signal := Signal.BUY_NO, confidence := 0.5
      reason := "Balanced: Contrarian NO at " ++
        toFixed1 (market.noPrice * 100) ++ "%"
      suggestedSize := calculateSize 0.15 }
  else
    { market := market, signal := Signal.HOLD, confidence := 0.4
      reason := "Balanced: No clear opportunity", suggestedSize := 0 }

/-- The `analyze(market, strategy)` (analyzer.ts lines 14-41).  The `llm` branch
returns the synchronous placeholder of lines 17-25. -/
def analyze (market : EnrichedMarket) (strategy : StrategyType) (rand : ℚ) :
    MarketAnalysis :=
  match strategy with
  | StrategyType.llm =>
      { market := market, signal := Signal.HOLD, confidence := 0
        reason := "Use analyzeLLM() for LLM strategy", suggestedSize := 0 }
  | StrategyType.momentum => analyzeMomentum market
  | StrategyType.contrarian => analyzeContrarian market
  | StrategyType.value => analyzeValue market
  | StrategyType.random => analyzeRandom market rand
  | StrategyType.balanced => analyzeBalanced market

end MarketAnalyzer

/-! ## RiskManager (src/agent/risk.ts) -/

/-- The `{ allowed, reason }` record of `canTakeNewPosition`. -/
structure RiskDecision where
  allowed : Bool
  reason : String
deriving DecidableEq, Repr

namespace RiskManager

/-- Reason of check 1 (risk.ts line 35). -/
def maxPositionsMsg (maxPositions : ℕ) : String :=
  "Max positions reached (" ++ toString maxPositions ++ ")"

/-- Reason of check 2 (risk.ts line 49). -/
def maxPositionSizeMsg : String :=
  "Max position size reached for this market"

/-- Reason of check 3 (risk.ts line 58). -/
def confidenceMsg (confidence minConfidence : ℚ) : String :=
  "Confidence " ++ toFixed1 (confidence * 100) ++ "% below threshold " ++
    toFixed1 (minConfidence * 100) ++ "%"

/-- Reason of check 4 (risk.ts line 71). -/
def tooLargeMsg : String :=
  "Trade too large relative to available cash"

/-- Reason on success (risk.ts line 77). -/
def passMsg : String :=
  "Trade passes risk checks"

/-- Checks 3 and 4 of `canTakeNewPosition` (confidence threshold, then cash
exposure; risk.ts lines 54-78). -/
def canTakeNewPositionRest (config : AgentConfig) (analysis : MarketAnalysis)
    (portfolio : PortfolioSummary) : RiskDecision :=
  if analysis.confidence < config.minConfidence then
    { allowed := false
      reason := confidenceMsg analysis.confidence config.minConfidence }
  else
    let estimatedCost := analysis.suggestedSize *
      (if analysis.signal.includesYES then analysis.market.yesPrice
       else analysis.market.noPrice)
    if estimatedCost > portfolio.cash * 0.2 then
      { allowed := false, reason := tooLargeMsg }
    else
      { allowed := true, reason := passMsg }

/-- The `canTakeNewPosition(analysis, positions, portfolio)`
(risk.ts lines 26-79). -/
def canTakeNewPosition (config : AgentConfig) (analysis : MarketAnalysis)
    (positions : List Position) (portfolio : PortfolioSummary) :
    RiskDecision :=
  if positions.length ≥ config.maxPositions then
    { allowed := false, reason := maxPositionsMsg config.maxPositions }
  else
    let existingPosition :=
      positions.find? fun p => p.marketId = analysis.market.condition_id
    match existingPosition with
    | some p =>
        if p.shares * p.currentPrice ≥ config.maxPositionSize then
          { allowed := false, reason := maxPositionSizeMsg }
        else
          canTakeNewPositionRest config analysis portfolio
    | none => canTakeNewPositionRest config analysis portfolio

/-- The `calculatePositionSize(analysis, portfolio)` (risk.ts lines 84-98). -/
def calculatePositionSize (config : AgentConfig) (analysis : MarketAnalysis)
    (portfolio : PortfolioSummary) : ℚ :=
  let maxSizeByConfig := config.maxPositionSize
  let maxSizeByCapital := portfolio.cash * 0.1
  let confidenceMultiplier := analysis.confidence ^ 2
  let scaledSize := analysis.suggestedSize * confidenceMultiplier
  min (min scaledSize maxSizeByConfig) maxSizeByCapital

/-- First failing check of a list of check outcomes (`some reason` =
failing). -/
def firstFailing : List (Option String) → Option String
  | [] => none
  | some r :: _ => some r
  | none :: rest => firstFailing rest

/-- Modelled from the spec: the claim's reading of the four risk checks,
where check (2) rejects when *any* existing position in the analysis's
market already meets `maxPositionSize`. -/
def gateChecksClaimed (config : AgentConfig) (analysis : MarketAnalysis)
    (positions : List Position) (portfolio : PortfolioSummary) :
    List (Option String) :=
  [ if positions.length ≥ config.maxPositions then
      some (maxPositionsMsg config.maxPositions)
    else none,
    if positions.any (fun p => p.marketId = analysis.market.condition_id ∧
        p.shares * p.currentPrice ≥ config.maxPositionSize) then
      some maxPositionSizeMsg
    else none,
    if analysis.confidence < config.minConfidence then
      some (confidenceMsg analysis.confidence config.minConfidence)
    else none,
    if analysis.suggestedSize *
        (if analysis.signal.includesYES then analysis.market.yesPrice
         else analysis.market.noPrice) > portfolio.cash * 0.2 then
      some tooLargeMsg
    else none ]

/-- Modelled from the spec: the risk gate as "four checks in this order,
return the first failing reason", with the claim's existential check (2). -/
def riskGateClaimed (config : AgentConfig) (analysis : MarketAnalysis)
    (positions : List Position) (portfolio : PortfolioSummary) :
    RiskDecision :=
  match firstFailing (gateChecksClaimed config analysis positions portfolio) with
  | some r => { allowed := false, reason := r }
  | none => { allowed := true, reason := passMsg }

/-- Modelled from the spec, amended: check (2) examines only the *first*
position listed for the analysis's market, as the source does. -/
def gateChecksFirstMatch (config : AgentConfig) (analysis : MarketAnalysis)
    (positions : List Position) (portfolio : PortfolioSummary) :
    List (Option String) :=
  [ if positions.length ≥ config.maxPositions then
      some (maxPositionsMsg config.maxPositions)
    else none,
    match positions.find? (fun p => p.marketId = analysis.market.condition_id) with
    | some p =>
        if p.shares * p.currentPrice ≥ config.maxPositionSize then
          some maxPositionSizeMsg
        else none
    | none => none,
    if analysis.confidence < config.minConfidence then
      some (confidenceMsg analysis.confidence config.minConfidence)
    else none,
    if analysis.suggestedSize *
        (if analysis.signal.includesYES then analysis.market.yesPrice
         else analysis.market.noPrice) > portfolio.cash * 0.2 then
      some tooLargeMsg
    else none ]

/-- Modelled from the spec, amended: the four-check cascade with the
first-listed-position reading of check (2). -/
def riskGateFirstMatch (config : AgentConfig) (analysis : MarketAnalysis)
    (positions : List Position) (portfolio : PortfolioSummary) :
    RiskDecision :=
  match firstFailing (gateChecksFirstMatch config analysis positions portfolio) with
  | some r => { allowed := false, reason := r }
  | none => { allowed := true, reason := passMsg }

end RiskManager

/-! ## Serialization layer (serialize / restore)

`serialize()` produces a JSON string via `JSON.stringify` and `restore()`
begins with `JSON.parse`.  The embedding works at the level of JavaScript
*runtime values* (`JsVal` below) and quotients out the string layer:

* the output of `JSON.stringify` is represented by the value that
  `JSON.parse` returns on it, i.e. by `toJson v` (Dates are serialized
  through `Date.prototype.toJSON` as ISO strings — modelled by `isoOfTime`,
  an injective rendering of the millisecond timestamp — and `undefined`
  object fields are dropped);
* an arbitrary input string is represented by `Option JsVal`: `none` when
  `JSON.parse` throws on it, `some v` when it parses to `v`;
* inside `PortfolioManager.restore` the sub-blobs are re-parsed with
  `JSON.parse`; that inner parse is an explicit oracle parameter
  `jp : String → Option JsVal`.

Operations that can throw (`parsed.map` on a non-array, property access on
`null`/`undefined`, destructuring a non-iterable) are `Except`-valued; the
`try { … } catch { … }` of each `restore` is the surrounding handler that
falls back to the prior state. -/

/-- JavaScript runtime values, as far as the persistence layer can observe
them.  `date` is a valid `Date` (milliseconds since the epoch; the model
restricts to the nonnegative range, which covers every date the engine
creates), `invalidDate` is `new Date(NaN)`. -/
inductive JsVal where
  | undefined
  | null
  | bool (b : Bool)
  | num (q : ℚ)
  | str (s : String)
  | arr (elems : List JsVal)
  | obj (fields : List (String × JsVal))
  | date (ms : ℕ)
  | invalidDate

namespace JsVal

mutual

/-- SameValueZero comparison of runtime values (used by the `Map`
constructor to key entries); structural equality on this value model. -/
def sameValue (x y : JsVal) : Bool :=
  match x, y with
  | undefined, undefined => true
  | null, null => true
  | invalidDate, invalidDate => true
  | date p, date q => p == q
  | bool p, bool q => p == q
  | num p, num q => p == q
  | str p, str q => p == q
  | arr p, arr q => sameValueList p q
  | obj p, obj q => sameValueFields p q
  | _, _ => false

/-- Elementwise `sameValue` on array contents. -/
def sameValueList (x y : List JsVal) : Bool :=
  match x, y with
  | [], [] => true
  | p :: ps, q :: qs => sameValue p q && sameValueList ps qs
  | _, _ => false

/-- Fieldwise `sameValue` on object contents. -/
def sameValueFields (x y : List (String × JsVal)) : Bool :=
  match x, y with
  | [], [] => true
  | p :: ps, q :: qs => p.1 == q.1 && sameValue p.2 q.2 && sameValueFields ps qs
  | _, _ => false

end

/-- Digit value of a decimal digit character. -/
def charToDigit (c : Char) : ℕ := c.toNat - 48

/-- The ISO rendering of a timestamp, modelled as its decimal digit string
(what matters for the round trip is only that `parseIso` inverts it). -/
def isoOfTime (t : ℕ) : String :=
  String.mk ((Nat.digits 10 t).reverse.map Nat.digitChar)

/-- The `new Date(isoString).getTime()`: parse the decimal rendering back. -/
def parseIso (s : String) : ℕ :=
  Nat.ofDigits 10 ((s.data.map charToDigit).reverse)

mutual

/-- The `JSON.parse ∘ JSON.stringify` on a runtime value: `Date`s are rendered
through `toJSON` as ISO strings (an invalid date renders as `null`),
`undefined` array elements become `null`, and `undefined` object fields are
dropped. -/
def toJson : JsVal → JsVal
  | undefined => undefined
  | null => null
  | bool b => bool b
  | num q => num q
  | str s => str s
  | arr l => arr (toJsonList l)
  | obj l => obj (toJsonFields l)
  | date t => str (isoOfTime t)
  | invalidDate => null

/-- The `toJson` on the elements of an array. -/
def toJsonList : List JsVal → List JsVal
  | [] => []
  | undefined :: rest => null :: toJsonList rest
  | v :: rest => toJson v :: toJsonList rest

/-- The `toJson` on the fields of an object (dropping `undefined` values). -/
def toJsonFields : List (String × JsVal) → List (String × JsVal)
  | [] => []
  | (_, undefined) :: rest => toJsonFields rest
  | (k, v) :: rest => (k, toJson v) :: toJsonFields rest

end

/-- The own enumerable properties contributed by `{...v}`: an object's
fields; an array's or string's index-keyed elements; nothing for primitives,
`null`/`undefined` and `Date` objects. -/
def spreadFields : JsVal → List (String × JsVal)
  | .obj l => l
  | .arr l => l.enum.map fun e => (toString e.1, e.2)
  | .str s => s.data.enum.map fun e => (toString e.1, .str (String.mk [e.2]))
  | _ => []

/-- The `parsed.map(cb)` on an array: apply the callback to the elements left to
right; the first throw propagates. -/
def jsArrayMapE {α : Type} (f : JsVal → Except Unit α) :
    List JsVal → Except Unit (List α)
  | [] => .ok []
  | v :: rest => do
      let x ← f v
      let xs ← jsArrayMapE f rest
      .ok (x :: xs)

/-- Property access `v.k`: throws a `TypeError` on `null`/`undefined`,
otherwise yields the field (`none` = `undefined`). -/
def objGetE (v : JsVal) (k : String) : Except Unit (Option JsVal) :=
  match v with
  | .undefined => .error ()
  | .null => .error ()
  | .obj l => .ok (jsMapGet l k)
  | _ => .ok none

/-- The `new Date(arg)` where `arg` may be absent (`undefined`).  Object and
array arguments coerce through strings and are outside any serialized shape
the engine produces; the model renders them invalid. -/
def newDate (arg : Option JsVal) : JsVal :=
  match arg with
  | none => .invalidDate
  | some .undefined => .invalidDate
  | some (.str s) => .date (parseIso s)
  | some (.num q) => if q < 0 then .invalidDate else .date ⌊q⌋.toNat
  | some .null => .date 0
  | some (.bool b) => .date (if b then 1 else 0)
  | some (.date t) => .date t
  | some .invalidDate => .invalidDate
  | some (.arr _) => .invalidDate
  | some (.obj _) => .invalidDate

/-- JS truthiness of a value (for `if (parsed.balance)`). -/
def truthy : JsVal → Bool
  | .undefined => false
  | .null => false
  | .bool b => b
  | .num q => q ≠ 0
  | .str s => s ≠ ""
  | _ => true

end JsVal

namespace BalanceManager

/-- The `VirtualBalance` record as the runtime value `JSON.stringify`
receives (balance.ts lines 18-23 fix the field order). -/
def balanceToJsVal (b : VirtualBalance) : JsVal :=
  .obj [("cash", .num b.cash), ("totalValue", .num b.totalValue),
        ("initialBalance", .num b.initialBalance),
        ("lastUpdated", .date b.lastUpdated)]

/-- The `serialize()` (balance.ts lines 100-102), as the value its output string
parses back to. -/
def serializeBalance (b : VirtualBalance) : JsVal :=
  (balanceToJsVal b).toJson

/-- The body of `restore(data)` (balance.ts lines 107-117) before its
`catch`: `this.balance = { ...parsed, lastUpdated: new Date(parsed.lastUpdated) }`.
`input` is what `JSON.parse(data)` yields (`none` = it threw). -/
def balanceRestoreE (input : Option JsVal) : Except Unit JsVal :=
  match input with
  | none => .error ()
  | some parsed => do
      let lu ← JsVal.objGetE parsed "lastUpdated"
      .ok (.obj (jsMapSet (JsVal.spreadFields parsed) "lastUpdated"
        (JsVal.newDate lu)))

/-- The `restore(data)` with its `catch`: on any throw the prior balance `cur`
is kept. -/
def balanceRestore (cur : JsVal) (input : Option JsVal) : JsVal :=
  match balanceRestoreE input with
  | .ok v => v
  | .error _ => cur

end BalanceManager

namespace PositionTracker

/-- A `Position` record as a runtime value (positions.ts lines 272-283 fix
the field order). -/
def positionToJsVal (p : Position) : JsVal :=
  .obj [("id", .str p.id), ("marketId", .str p.marketId),
        ("marketQuestion", .str p.marketQuestion),
        ("tokenId", .str p.tokenId), ("outcome", .str p.outcome),
        ("shares", .num p.shares), ("avgPrice", .num p.avgPrice),
        ("currentPrice", .num p.currentPrice),
        ("unrealizedPnL", .num p.unrealizedPnL),
        ("openedAt", .date p.openedAt)]

/-- The `Map` entries as runtime values (`Array.from(this.positions.entries())`). -/
def positionsToJsEntries (ps : PositionMap) : List (JsVal × JsVal) :=
  ps.map fun e => (.str e.1, positionToJsVal e.2)

/-- The `serialize()` (positions.ts lines 380-383), as the value its output
string parses back to. -/
def serializePositions (ps : PositionMap) : JsVal :=
  (JsVal.arr (ps.map fun e => .arr [.str e.1, positionToJsVal e.2])).toJson

/-- Character `i` of a string when destructured, as a one-character string
(`undefined` past the end). -/
def strChar (s : String) (i : ℕ) : JsVal :=
  match s.data.drop i with
  | c :: _ => .str (String.mk [c])
  | [] => .undefined

/-- Array destructuring `[key, pos] = v`: arrays give their first two
elements (`undefined`-padded), strings their first two characters, anything
else throws (not iterable). -/
def destructurePair (v : JsVal) : Except Unit (JsVal × JsVal) :=
  match v with
  | .arr l => .ok (l.getD 0 .undefined, l.getD 1 .undefined)
  | .str s => .ok (strChar s 0, strChar s 1)
  | _ => .error ()

/-- One element of the restore mapping (positions.ts lines 391-394):
`([key, pos]) => [key, { ...pos, openedAt: new Date(pos.openedAt) }]`. -/
def restoreEntry (v : JsVal) : Except Unit (JsVal × JsVal) := do
  let kp ← destructurePair v
  let oa ← JsVal.objGetE kp.2 "openedAt"
  .ok (kp.1, .obj (jsMapSet (JsVal.spreadFields kp.2) "openedAt"
    (JsVal.newDate oa)))

/-- The body of `restore(data)` (positions.ts lines 388-398) before its
`catch`: `parsed.map` throws unless `parsed` is an array. -/
def positionsRestoreE (input : Option JsVal) :
    Except Unit (List (JsVal × JsVal)) :=
  match input with
  | none => .error ()
  | some (.arr l) => JsVal.jsArrayMapE restoreEntry l
  | some _ => .error ()

/-- The `restore(data)` with its `catch`; on success the entries are fed to
`new Map(...)`, which keys by SameValueZero (`jsMapSet` fold). -/
def positionsRestore (cur : List (JsVal × JsVal)) (input : Option JsVal) :
    List (JsVal × JsVal) :=
  match positionsRestoreE input with
  | .ok entries => entries.foldl (fun m e => jsMapSetBy JsVal.sameValue m e.1 e.2) []
  | .error _ => cur

end PositionTracker

namespace TradeExecutor

/-- The `'BUY' | 'SELL'` as the stored string. -/
def sideToStr : Side → String
  | Side.BUY => "BUY"
  | Side.SELL => "SELL"

/-- The fields of a `Trade` record (trades.ts lines 57-69 and 118-131 fix
the field order; `realizedPnL` is present only when set). -/
def tradeFields (t : Trade) : List (String × JsVal) :=
  [("id", .str t.id), ("timestamp", .date t.timestamp),
   ("marketId", .str t.marketId),
   ("marketQuestion", .str t.marketQuestion),
   ("tokenId", .str t.tokenId), ("outcome", .str t.outcome),
   ("side", .str (sideToStr t.side)), ("shares", .num t.shares),
   ("price", .num t.price), ("totalCost", .num t.totalCost),
   ("fees", .num t.fees)] ++
  (match t.realizedPnL with
   | some q => [("realizedPnL", JsVal.num q)]
   | none => [])

/-- A `Trade` record as a runtime value. -/
def tradeToJsVal (t : Trade) : JsVal :=
  .obj (tradeFields t)

/-- The trade history as runtime values. -/
def tradesToJsList (ts : List Trade) : List JsVal :=
  ts.map tradeToJsVal

/-- The `serialize()` (trades.ts lines 198-200), as the value its output string
parses back to. -/
def serializeTrades (ts : List Trade) : JsVal :=
  (JsVal.arr (tradesToJsList ts)).toJson

/-- One element of the restore mapping (trades.ts lines 208-211):
`t => ({ ...t, timestamp: new Date(t.timestamp) })`. -/
def restoreTradeElem (v : JsVal) : Except Unit JsVal := do
  let ts ← JsVal.objGetE v "timestamp"
  .ok (.obj (jsMapSet (JsVal.spreadFields v) "timestamp" (JsVal.newDate ts)))

/-- The body of `restore(data)` (trades.ts lines 205-215) before its `catch`. -/
def tradesRestoreE (input : Option JsVal) : Except Unit (List JsVal) :=
  match input with
  | none => .error ()
  | some (.arr l) => JsVal.jsArrayMapE restoreTradeElem l
  | some _ => .error ()

/-- The `restore(data)` with its `catch`. -/
def tradesRestore (cur : List JsVal) (input : Option JsVal) : List JsVal :=
  match tradesRestoreE input with
  | .ok l => l
  | .error _ => cur

end TradeExecutor

namespace PortfolioManager

/-- The in-memory state of the three persisted components, at the runtime
granularity `restore` can leave them in. -/
structure PortfolioJsState where
  balance : JsVal
  positions : List (JsVal × JsVal)
  trades : List JsVal

/-- The `String(v)` as used by `JSON.parse` on a non-string argument. -/
def coerceToString : JsVal → String
  | .str s => s
  | .num q => numToString q
  | .bool b => if b then "true" else "false"
  | .null => "null"
  | .undefined => "undefined"
  | .date t => JsVal.isoOfTime t
  | .invalidDate => "Invalid Date"
  | .arr _ => ""
  | .obj _ => "[object Object]"

/-- The `JSON.parse` applied to a sub-blob value, through the parse oracle
`jp` (`none` = the parse threw). -/
def subParse (jp : String → Option JsVal) (v : JsVal) : Option JsVal :=
  jp (coerceToString v)

/-- The body of `PortfolioManager.restore(data)` (portfolio.ts lines
111-120) before its `catch`: parse the bundle, then, for each truthy
sub-field, delegate to that component's own (non-throwing) `restore`. -/
def portfolioRestoreE (jp : String → Option JsVal) (cur : PortfolioJsState)
    (input : Option JsVal) : Except Unit PortfolioJsState := do
  match input with
  | none => .error ()
  | some parsed =>
      let balField ← JsVal.objGetE parsed "balance"
      let st1 :=
        match balField with
        | some v =>
            if JsVal.truthy v then
              { cur with
                  balance := BalanceManager.balanceRestore cur.balance
                    (subParse jp v) }
            else cur
        | none => cur
      let posField ← JsVal.objGetE parsed "positions"
      let st2 :=
        match posField with
        | some v =>
            if JsVal.truthy v then
              { st1 with
                  positions := PositionTracker.positionsRestore st1.positions
                    (subParse jp v) }
            else st1
        | none => st1
      let trField ← JsVal.objGetE parsed "trades"
      let st3 :=
        match trField with
        | some v =>
            if JsVal.truthy v then
              { st2 with
                  trades := TradeExecutor.tradesRestore st2.trades
                    (subParse jp v) }
            else st2
        | none => st2
      .ok st3

/-- The `restore(data)` with its `catch`: any throw keeps the prior state. -/
def portfolioRestore (jp : String → Option JsVal) (cur : PortfolioJsState)
    (input : Option JsVal) : PortfolioJsState :=
  match portfolioRestoreE jp cur input with
  | .ok s => s
  | .error _ => cur

end PortfolioManager

/-! ## Concrete sample inputs (for scenarios, witnesses and counterexamples) -/

/-- A fresh engine: cash 100000, no positions, no history. -/
def sampleState : EngineState :=
  { balance := { cash := 100000, totalValue := 100000,
                 initialBalance := 100000, lastUpdated := 0 },
    positions := [], history := [] }

/-- A BUY order on market `m1`, outcome `YES`. -/
def sampleBuy (sh p : ℚ) : OrderRequest :=
  { marketId := "m1", marketQuestion := "q", tokenId := "t1",
    outcome := "YES", side := Side.BUY, shares := sh, price := p }

/-- A SELL order on market `m1`, outcome `YES`. -/
def sampleSell (sh p : ℚ) : OrderRequest :=
  { marketId := "m1", marketQuestion := "q", tokenId := "t1",
    outcome := "YES", side := Side.SELL, shares := sh, price := p }

/-- A fixed execution environment. -/
def sampleEnv : ExecEnv := { now := 0, tradeId := "T1", posId := "P1" }

/-- A second execution environment. -/
def sampleEnv2 : ExecEnv := { now := 1, tradeId := "T2", posId := "P2" }

/-- A small open position in market `m1`. -/
def samplePos : Position :=
  { id := "p1", marketId := "m1", marketQuestion := "q", tokenId := "t1",
    outcome := "YES", shares := 1, avgPrice := 0.5, currentPrice := 0.5,
    unrealizedPnL := 0, openedAt := 0 }

/-- A large open position in market `m1` on the other outcome: its current
value `1000 × 0.5 = 500` exceeds the sample `maxPositionSize`. -/
def samplePosBig : Position :=
  { id := "p2", marketId := "m1", marketQuestion := "q", tokenId := "t2",
    outcome := "NO", shares := 1000, avgPrice := 0.5, currentPrice := 0.5,
    unrealizedPnL := 0, openedAt := 0 }

/-- A sample portfolio summary with ample cash. -/
def samplePortfolio : PortfolioSummary :=
  { cash := 100000, positionsValue := 500, totalValue := 100500,
    totalPnL := 500, totalPnLPercent := 0.5, positionCount := 2,
    tradeCount := 2, winRate := 0 }

/-- Risk configuration for the check-order counterexample:
`maxPositionSize = 100` is already exceeded by `samplePosBig`. -/
def sampleConfig : AgentConfig :=
  { maxPositionSize := 100, maxPositions := 10, minConfidence := 0.5 }

/-- Risk configuration for the confidence-rejection counterexample:
`maxPositions = 1` is already reached by `[samplePos]`. -/
def sampleConfigTight : AgentConfig :=
  { maxPositionSize := 10000, maxPositions := 1, minConfidence := 0.5 }

/-- A market snapshot for market `m1` at even odds. -/
def sampleMarket : EnrichedMarket :=
  { condition_id := "m1", question := "q", yesPrice := 0.5, noPrice := 0.5 }

/-- A high-confidence analysis of `sampleMarket`. -/
def sampleAnalysis : MarketAnalysis :=
  { market := sampleMarket, signal := Signal.BUY_YES, confidence := 0.9,
    reason := "r", suggestedSize := 10 }

/-- A low-confidence (0.45) analysis of `sampleMarket`. -/
def sampleAnalysisLow : MarketAnalysis :=
  { market := sampleMarket, signal := Signal.BUY_YES, confidence := 0.45,
    reason := "r", suggestedSize := 10 }

/-- A market in the value band whose NO side is the cheaper one
(`noPrice = 0.40 < yesPrice = 0.45`), with `|yesPrice − 0.5| = 0.05 < 0.15`. -/
def sampleMarketSkew : EnrichedMarket :=
  { condition_id := "m9", question := "q", yesPrice := 0.45, noPrice := 0.40 }

/-- A healthy in-memory portfolio state before a `restore`. -/
def samplePortfolioJsState : PortfolioManager.PortfolioJsState :=
  { balance := BalanceManager.balanceToJsVal
      { cash := 100000, totalValue := 100000, initialBalance := 100000,
        lastUpdated := 0 },
    positions := [], trades := [] }

/-- A bundle whose `balance` sub-blob is the string `"0"`: valid JSON, but
not the shape `BalanceManager.serialize` produces. -/
def sampleBundleBad : JsVal := .obj [("balance", .str "0")]

/-- A parse oracle agreeing with `JSON.parse` on the string `"0"`. -/
def sampleJp : String → Option JsVal :=
  fun s => if s = "0" then some (.num 0) else none

/-! # Theorems -/

/-! ## Association-list (JS `Map`) lemmas -/

/-- Reading back the key just set. -/
theorem jsMapGet_set_self {κ β : Type} [DecidableEq κ]
    (l : List (κ × β)) (k : κ) (v : β) :
    jsMapGet (jsMapSet l k v) k = some v := by
  induction l with
  | nil => simp [jsMapSet, jsMapGet]
  | cons e rest ih =>
      by_cases h : e.1 = k
      · simp [jsMapSet, jsMapGet, h]
      · simp [jsMapSet, jsMapGet, h, ih]

/-- A key that is not present reads as `none`. -/
theorem jsMapGet_eq_none {κ β : Type} [DecidableEq κ]
    (l : List (κ × β)) (k : κ) (h : k ∉ l.map Prod.fst) :
    jsMapGet l k = none := by
  induction l with
  | nil => simp [jsMapGet]
  | cons e rest ih =>
      simp only [List.map_cons, List.mem_cons] at h
      push_neg at h
      have hne : ¬ e.1 = k := fun he => h.1 he.symm
      simp [jsMapGet, hne, ih h.2]

/-- After deleting a key from a map with unique keys, the key is gone. -/
theorem jsMapGet_delete_self {κ β : Type} [DecidableEq κ]
    (l : List (κ × β)) (k : κ) (h : (l.map Prod.fst).Nodup) :
    jsMapGet (jsMapDelete l k) k = none := by
  induction l with
  | nil => simp [jsMapDelete, jsMapGet]
  | cons e rest ih =>
      simp only [List.map_cons, List.nodup_cons] at h
      by_cases he : e.1 = k
      · simpa [jsMapDelete, he] using jsMapGet_eq_none rest k (he ▸ h.1)
      · simp [jsMapDelete, jsMapGet, he, ih h.2]

/-! ## Cash accounting (C1) -/

/-- Cash effect of a single `execute` call: a successful buy deducts
`shares × price × 1.001`, a successful sell credits `shares × price × 0.999`,
every other outcome leaves cash unchanged. -/
theorem execute_cash_delta (s : EngineState) (o : OrderRequest) (env : ExecEnv) :
    (TradeExecutor.execute s o env).2.balance.cash =
      s.balance.cash
        - (if (TradeExecutor.execute s o env).1.success = true ∧ o.side = Side.BUY
           then o.shares * o.price * 1.001 else 0)
        + (if (TradeExecutor.execute s o env).1.success = true ∧ o.side = Side.SELL
           then o.shares * o.price * 0.999 else 0) := by
  rcases o with ⟨mId, mq, tid, outc, side, sh, p⟩
  cases side
  case BUY =>
    by_cases h : BalanceManager.canAfford s.balance
        (sh * p + sh * p * TradeExecutor.FEE_RATE) = true
    · simp only [TradeExecutor.execute, TradeExecutor.executeBuy,
        BalanceManager.deductCash, h]
      simp [TradeExecutor.FEE_RATE]
      ring
    · simp [TradeExecutor.execute, TradeExecutor.executeBuy, h]
  case SELL =>
    by_cases hlt : PositionTracker.getPositionSize s.positions mId outc < sh
    · simp [TradeExecutor.execute, TradeExecutor.executeSell, hlt]
    · by_cases h2 :
          (PositionTracker.reducePosition s.positions mId outc sh p).1.success = true
      · simp only [TradeExecutor.execute, TradeExecutor.executeSell, hlt, h2]
        simp [BalanceManager.addCash, TradeExecutor.FEE_RATE]
        ring
      · simp [TradeExecutor.execute, TradeExecutor.executeSell, hlt, h2]

/-- Cash effect of a single `execute` call on nonnegativity. -/
theorem execute_cash_nonneg (s : EngineState) (o : OrderRequest) (env : ExecEnv)
    (hc : 0 ≤ s.balance.cash) (hs : 0 ≤ o.shares) (hp : 0 ≤ o.price) :
    0 ≤ (TradeExecutor.execute s o env).2.balance.cash := by
  rcases o with ⟨mId, mq, tid, outc, side, sh, p⟩
  cases side
  case BUY =>
    by_cases h : BalanceManager.canAfford s.balance
        (sh * p + sh * p * TradeExecutor.FEE_RATE) = true
    · have hge : sh * p + sh * p * TradeExecutor.FEE_RATE ≤ s.balance.cash := by
        simpa [BalanceManager.canAfford] using h
      simp only [TradeExecutor.execute, TradeExecutor.executeBuy,
        BalanceManager.deductCash, h]
      simp
      linarith
    · simpa [TradeExecutor.execute, TradeExecutor.executeBuy, h] using hc
  case SELL =>
    by_cases hlt : PositionTracker.getPositionSize s.positions mId outc < sh
    · simpa [TradeExecutor.execute, TradeExecutor.executeSell, hlt] using hc
    · by_cases h2 :
          (PositionTracker.reducePosition s.positions mId outc sh p).1.success = true
      · have hnet : 0 ≤ sh * p - sh * p * TradeExecutor.FEE_RATE := by
          have hsp : 0 ≤ sh * p := mul_nonneg hs hp
          simp only [TradeExecutor.FEE_RATE]
          nlinarith
        simp only [TradeExecutor.execute, TradeExecutor.executeSell, hlt, h2]
        simp [BalanceManager.addCash]
        linarith
      · simpa [TradeExecutor.execute, TradeExecutor.executeSell, hlt, h2] using hc

/-- Conservation over a whole trace, stated on the result list that
`runTrace` collects. -/
theorem runTrace_cash (tr : List (OrderRequest × ExecEnv)) :
    ∀ s : EngineState,
      (TradeExecutor.runTrace s tr).1.balance.cash =
        s.balance.cash
          - TradeExecutor.sumBuyCosts (TradeExecutor.runTrace s tr).2
          + TradeExecutor.sumSellProceeds (TradeExecutor.runTrace s tr).2 := by
  induction tr with
  | nil =>
      intro s
      simp [TradeExecutor.runTrace, TradeExecutor.sumBuyCosts,
        TradeExecutor.sumSellProceeds]
  | cons e rest ih =>
      intro s
      obtain ⟨o, env⟩ := e
      simp only [TradeExecutor.runTrace]
      rw [ih]
      rw [execute_cash_delta s o env]
      simp only [TradeExecutor.sumBuyCosts, TradeExecutor.sumSellProceeds,
        List.map_cons, List.sum_cons]
      ring

/-- Nonnegativity of cash over a whole trace. -/
theorem runTrace_cash_nonneg (tr : List (OrderRequest × ExecEnv)) :
    ∀ s : EngineState, 0 ≤ s.balance.cash →
      (∀ e ∈ tr, 0 ≤ e.1.shares ∧ 0 ≤ e.1.price) →
      0 ≤ (TradeExecutor.runTrace s tr).1.balance.cash := by
  induction tr with
  | nil => intro s hc _; simpa [TradeExecutor.runTrace] using hc
  | cons e rest ih =>
      intro s hc hall
      obtain ⟨o, env⟩ := e
      simp only [TradeExecutor.runTrace]
      refine ih _ ?_ ?_
      · exact execute_cash_nonneg s o env hc (hall (o, env) (by simp)).1
          (hall (o, env) (by simp)).2
      · intro e he
        exact hall e (List.mem_cons_of_mem _ he)

/-- C1.  Conservation of cash: for every sequence of `TradeExecutor.execute`
calls, the final cash equals the starting cash minus
`Σ totalWithFees = shares × price × 1.001` over the successful buys plus
`Σ netProceeds = shares × price × 0.999` over the successful sells, exactly;
and from a nonnegative starting cash, with nonnegative order shares and
prices, cash stays nonnegative in every reachable state. -/
theorem conservation_of_cash :
    (∀ (s : EngineState) (tr : List (OrderRequest × ExecEnv)),
        (TradeExecutor.runTrace s tr).1.balance.cash =
          s.balance.cash
            - TradeExecutor.sumBuyCosts (TradeExecutor.runTrace s tr).2
            + TradeExecutor.sumSellProceeds (TradeExecutor.runTrace s tr).2) ∧
    (∀ (s : EngineState) (tr : List (OrderRequest × ExecEnv)),
        0 ≤ s.balance.cash →
        (∀ e ∈ tr, 0 ≤ e.1.shares ∧ 0 ≤ e.1.price) →
        0 ≤ (TradeExecutor.runTrace s tr).1.balance.cash) :=
  ⟨fun s tr => runTrace_cash tr s, fun s tr => runTrace_cash_nonneg tr s⟩

/-- Witness for C1 at a concrete two-order trace. -/
theorem conservation_of_cash_witness :
    0 ≤ sampleState.balance.cash ∧
    (∀ e ∈ [(sampleBuy 1000 0.4, sampleEnv), (sampleSell 300 0.6, sampleEnv2)],
        0 ≤ e.1.shares ∧ 0 ≤ e.1.price) ∧
    0 ≤ (TradeExecutor.runTrace sampleState
          [(sampleBuy 1000 0.4, sampleEnv),
           (sampleSell 300 0.6, sampleEnv2)]).1.balance.cash :=
  ⟨by norm_num [sampleState],
    by
      intro e he
      simp only [List.mem_cons, List.not_mem_nil, or_false] at he
      rcases he with rfl | rfl <;> norm_num [sampleBuy, sampleSell],
    conservation_of_cash.2 sampleState
      [(sampleBuy 1000 0.4, sampleEnv), (sampleSell 300 0.6, sampleEnv2)]
      (by norm_num [sampleState])
      (by
        intro e he
        simp only [List.mem_cons, List.not_mem_nil, or_false] at he
        rcases he with rfl | rfl <;> norm_num [sampleBuy, sampleSell])⟩

/-! ## Atomicity of rejected orders (C2) -/

/-- C2.  A BUY whose `totalWithFees` exceeds the cash, and a SELL whose
requested shares exceed the held shares for the key, both return
`success = false` with the respective error string (for the sell, of the
form `Insufficient shares. Have <held>, trying to sell <requested>`) and
leave the whole engine state — cash, position map and trade history —
exactly as it was. -/
theorem rejected_orders_atomic (s : EngineState) (o : OrderRequest)
    (env : ExecEnv) :
    (o.side = Side.BUY →
      s.balance.cash <
        o.shares * o.price + o.shares * o.price * TradeExecutor.FEE_RATE →
      TradeExecutor.execute s o env =
        ({ success := false, trade := none,
           error := some (TradeExecutor.insufficientFundsMsg
             (o.shares * o.price + o.shares * o.price * TradeExecutor.FEE_RATE)
             s.balance.cash),
           newBalance := none }, s)) ∧
    (o.side = Side.SELL →
      PositionTracker.getPositionSize s.positions o.marketId o.outcome <
        o.shares →
      TradeExecutor.execute s o env =
        ({ success := false, trade := none,
           error := some (TradeExecutor.insufficientSharesMsg
             (PositionTracker.getPositionSize s.positions o.marketId o.outcome)
             o.shares),
           newBalance := none }, s)) := by
  constructor
  · intro hside hlt
    have hcf : ¬ (BalanceManager.canAfford s.balance
        (o.shares * o.price + o.shares * o.price * TradeExecutor.FEE_RATE)
          = true) := by
      simp [BalanceManager.canAfford]
      linarith
    simp [TradeExecutor.execute, hside, TradeExecutor.executeBuy, hcf]
  · intro hside hlt
    simp [TradeExecutor.execute, hside, TradeExecutor.executeSell, hlt]

/-- Witness for C2: a buy far beyond the sample cash is rejected without
mutation. -/
theorem rejected_orders_atomic_witness :
    (sampleBuy 1000000 1).side = Side.BUY ∧
    sampleState.balance.cash <
      (sampleBuy 1000000 1).shares * (sampleBuy 1000000 1).price +
        (sampleBuy 1000000 1).shares * (sampleBuy 1000000 1).price *
          TradeExecutor.FEE_RATE ∧
    TradeExecutor.execute sampleState (sampleBuy 1000000 1) sampleEnv =
      ({ success := false, trade := none,
         error := some (TradeExecutor.insufficientFundsMsg
           ((sampleBuy 1000000 1).shares * (sampleBuy 1000000 1).price +
             (sampleBuy 1000000 1).shares * (sampleBuy 1000000 1).price *
               TradeExecutor.FEE_RATE)
           sampleState.balance.cash),
         newBalance := none }, sampleState) :=
  ⟨rfl, by norm_num [sampleState, sampleBuy, TradeExecutor.FEE_RATE],
    (rejected_orders_atomic sampleState (sampleBuy 1000000 1) sampleEnv).1
      rfl (by norm_num [sampleState, sampleBuy, TradeExecutor.FEE_RATE])⟩

/-! ## Weighted-average cost basis (C3) -/

/-- C3.  A buy into an existing key adds the shares and sets the average
price to the share-weighted mean; a first buy creates the position at
`avgPrice = price`.  Concretely, buying 1000 shares at 0.40 and then 500 at
0.50 from cash 100000 leaves `avgPrice = 13/30 = 0.4333…` and cash
99349.35 exactly. -/
theorem weighted_average_cost_basis :
    (∀ (ps : PositionMap) (o : OrderRequest) (sh pr : ℚ) (newId : String)
        (now : ℕ) (p0 : Position),
        jsMapGet ps (PositionTracker.posKey o.marketId o.outcome) = some p0 →
        (PositionTracker.addPosition ps o sh pr newId now).1.shares =
            p0.shares + sh ∧
          (PositionTracker.addPosition ps o sh pr newId now).1.avgPrice =
            (p0.shares * p0.avgPrice + sh * pr) / (p0.shares + sh)) ∧
    (∀ (ps : PositionMap) (o : OrderRequest) (sh pr : ℚ) (newId : String)
        (now : ℕ),
        jsMapGet ps (PositionTracker.posKey o.marketId o.outcome) = none →
        (PositionTracker.addPosition ps o sh pr newId now).1.shares = sh ∧
          (PositionTracker.addPosition ps o sh pr newId now).1.avgPrice = pr) ∧
    ((TradeExecutor.runTrace sampleState
        [(sampleBuy 1000 0.4, sampleEnv),
         (sampleBuy 500 0.5, sampleEnv2)]).1.balance.cash = 99349.35 ∧
      (jsMapGet (TradeExecutor.runTrace sampleState
          [(sampleBuy 1000 0.4, sampleEnv),
           (sampleBuy 500 0.5, sampleEnv2)]).1.positions
          (PositionTracker.posKey "m1" "YES")).map
          Position.avgPrice = some (13 / 30)) := by
  refine ⟨?_, ?_, ?_, ?_⟩
  · intro ps o sh pr newId now p0 h
    simp [PositionTracker.addPosition, h]
  · intro ps o sh pr newId now h
    simp [PositionTracker.addPosition, h]
  · norm_num [TradeExecutor.runTrace, TradeExecutor.execute,
      TradeExecutor.executeBuy, BalanceManager.canAfford,
      BalanceManager.deductCash, PositionTracker.addPosition,
      PositionTracker.posKey, jsMapGet, jsMapSet, sampleState, sampleBuy,
      sampleEnv, sampleEnv2, TradeExecutor.FEE_RATE]
  · norm_num [TradeExecutor.runTrace, TradeExecutor.execute,
      TradeExecutor.executeBuy, BalanceManager.canAfford,
      BalanceManager.deductCash, PositionTracker.addPosition,
      PositionTracker.posKey, jsMapGet, jsMapSet, sampleState, sampleBuy,
      sampleEnv, sampleEnv2, TradeExecutor.FEE_RATE]

/-- Witness for C3 at a concrete map with an existing position. -/
theorem weighted_average_cost_basis_witness :
    jsMapGet [("m1-YES", samplePos)]
        (PositionTracker.posKey (sampleBuy 500 0.5).marketId
          (sampleBuy 500 0.5).outcome) = some samplePos ∧
    (PositionTracker.addPosition [("m1-YES", samplePos)] (sampleBuy 500 0.5)
        500 0.5 "P9" 7).1.shares = samplePos.shares + 500 ∧
    (PositionTracker.addPosition [("m1-YES", samplePos)] (sampleBuy 500 0.5)
        500 0.5 "P9" 7).1.avgPrice =
      (samplePos.shares * samplePos.avgPrice + 500 * 0.5) /
        (samplePos.shares + 500) :=
  ⟨rfl,
    weighted_average_cost_basis.1 [("m1-YES", samplePos)] (sampleBuy 500 0.5)
      500 0.5 "P9" 7 samplePos rfl⟩

/-! ## Selling never changes cost basis (C4) -/

/-- C4.  A successful `reducePosition` that leaves a positive remainder
keeps the position record identical except for `shares` (reduced),
`currentPrice` (set to the sell price) and `unrealizedPnL` (recomputed); in
particular `avgPrice`, `openedAt` and the identity fields are unchanged, and
the realized P&L is `(sellPrice − avgPrice) × shares sold`.  When the
remainder reaches 0 the key is removed from the map. -/
theorem sell_preserves_cost_basis (ps : PositionMap) (mId outc : String)
    (sh sp : ℚ) (p0 : Position)
    (hget : jsMapGet ps (PositionTracker.posKey mId outc) = some p0)
    (hle : sh ≤ p0.shares) :
    (0 < p0.shares - sh →
      (PositionTracker.reducePosition ps mId outc sh sp).1 =
        { success := true, realizedPnL := (sp - p0.avgPrice) * sh,
          remainingShares := p0.shares - sh } ∧
      jsMapGet (PositionTracker.reducePosition ps mId outc sh sp).2
          (PositionTracker.posKey mId outc) =
        some { p0 with
                 shares := p0.shares - sh
                 currentPrice := sp
                 unrealizedPnL := (sp - p0.avgPrice) * (p0.shares - sh) }) ∧
    (p0.shares - sh = 0 → (ps.map Prod.fst).Nodup →
      (PositionTracker.reducePosition ps mId outc sh sp).1 =
        { success := true, realizedPnL := (sp - p0.avgPrice) * sh,
          remainingShares := 0 } ∧
      jsMapGet (PositionTracker.reducePosition ps mId outc sh sp).2
          (PositionTracker.posKey mId outc) = none) := by
  have hnlt : ¬ p0.shares < sh := not_lt.mpr hle
  constructor
  · intro hpos
    have hnle : ¬ p0.shares - sh ≤ 0 := not_le.mpr hpos
    constructor
    · simp [PositionTracker.reducePosition, hget, hnlt, hnle]
    · simp [PositionTracker.reducePosition, hget, hnlt, hnle,
        jsMapGet_set_self]
  · intro hzero hnodup
    have hle0 : p0.shares - sh ≤ 0 := le_of_eq hzero
    constructor
    · simp [PositionTracker.reducePosition, hget, hnlt, hle0, hzero]
    · simp [PositionTracker.reducePosition, hget, hnlt, hle0,
        jsMapGet_delete_self ps _ hnodup]

/-- Witness for C4: selling 300 of 1500 held. -/
theorem sell_preserves_cost_basis_witness :
    jsMapGet [("m1-NO", samplePosBig)] (PositionTracker.posKey "m1" "NO") =
        some samplePosBig ∧
    (300 : ℚ) ≤ samplePosBig.shares ∧
    (0 : ℚ) < samplePosBig.shares - 300 ∧
    (PositionTracker.reducePosition [("m1-NO", samplePosBig)] "m1" "NO"
        300 0.6).1 =
      { success := true,
        realizedPnL := (0.6 - samplePosBig.avgPrice) * 300,
        remainingShares := samplePosBig.shares - 300 } := by
  refine ⟨rfl, by norm_num [samplePosBig], by norm_num [samplePosBig], ?_⟩
  exact ((sell_preserves_cost_basis [("m1-NO", samplePosBig)] "m1" "NO"
    300 0.6 samplePosBig rfl (by norm_num [samplePosBig])).1
      (by norm_num [samplePosBig])).1

/-! ## Risk-gate check order (C5) -/

/-- C5 counterexample.  With two positions in the analysis's market — a
small one listed first and one whose value `500` exceeds
`maxPositionSize = 100` listed second — the gate allows the trade, while the
claim's reading ("an existing position in the same market whose value meets
the cap" rejects) forbids it: the source checks only the first position
`find?` returns. -/
theorem risk_gate_exists_reading_refuted :
    samplePosBig.marketId = sampleAnalysis.market.condition_id ∧
    samplePosBig.shares * samplePosBig.currentPrice ≥
      sampleConfig.maxPositionSize ∧
    (RiskManager.canTakeNewPosition sampleConfig sampleAnalysis
        [samplePos, samplePosBig] samplePortfolio).allowed = true ∧
    (RiskManager.riskGateClaimed sampleConfig sampleAnalysis
        [samplePos, samplePosBig] samplePortfolio).allowed = false := by
  refine ⟨rfl, by norm_num [samplePosBig, sampleConfig], ?_, ?_⟩
  · norm_num [RiskManager.canTakeNewPosition,
      RiskManager.canTakeNewPositionRest, sampleConfig, sampleAnalysis,
      samplePos, samplePosBig, samplePortfolio, sampleMarket, List.find?,
      Signal.includesYES]
  · norm_num [RiskManager.riskGateClaimed, RiskManager.gateChecksClaimed,
      RiskManager.firstFailing, sampleConfig, sampleAnalysis, samplePos,
      samplePosBig, samplePortfolio, sampleMarket, List.any,
      Signal.includesYES]

/-- C5 amended.  The gate evaluates the four checks in the claimed order and
returns the first failing reason, with check (2) reading only the first
position listed for the analysis's market. -/
theorem risk_gate_check_order (config : AgentConfig)
    (analysis : MarketAnalysis) (positions : List Position)
    (portfolio : PortfolioSummary) :
    RiskManager.canTakeNewPosition config analysis positions portfolio =
      RiskManager.riskGateFirstMatch config analysis positions portfolio := by
  unfold RiskManager.canTakeNewPosition RiskManager.riskGateFirstMatch
    RiskManager.gateChecksFirstMatch RiskManager.canTakeNewPositionRest
  by_cases h1 : positions.length ≥ config.maxPositions
  · simp [h1, RiskManager.firstFailing]
  · cases hf : positions.find?
        (fun p => p.marketId = analysis.market.condition_id) with
    | none =>
        by_cases h3 : analysis.confidence < config.minConfidence
        · simp [h1, hf, h3, RiskManager.firstFailing]
        · simp [h1, hf, h3, RiskManager.firstFailing]
          split_ifs <;> simp [RiskManager.firstFailing]
    | some p =>
        by_cases h2 : p.shares * p.currentPrice ≥ config.maxPositionSize
        · simp [h1, hf, h2, RiskManager.firstFailing]
        · by_cases h3 : analysis.confidence < config.minConfidence
          · simp [h1, hf, h2, h3, RiskManager.firstFailing]
          · simp [h1, hf, h2, h3, RiskManager.firstFailing]
            split_ifs <;> simp [RiskManager.firstFailing]

/-! ## Confidence rejection and portfolio state (C6) -/

/-- C6 counterexample.  With `minConfidence = 0.5` and confidence `0.45`,
a portfolio already at `maxPositions = 1` is rejected with the
max-positions reason, not the confidence-threshold reason: the rejection
reason is *not* independent of the other portfolio state. -/
theorem confidence_rejection_state_dependent :
    sampleConfigTight.minConfidence = 0.5 ∧
    sampleAnalysisLow.confidence = 0.45 ∧
    (RiskManager.canTakeNewPosition sampleConfigTight sampleAnalysisLow
        [samplePos] samplePortfolio).reason =
      RiskManager.maxPositionsMsg 1 ∧
    RiskManager.maxPositionsMsg 1 ≠
      RiskManager.confidenceMsg sampleAnalysisLow.confidence
        sampleConfigTight.minConfidence := by
  refine ⟨rfl, rfl, ?_, ?_⟩
  · norm_num [RiskManager.canTakeNewPosition, sampleConfigTight,
      sampleAnalysisLow, samplePos, samplePortfolio]
  · norm_num [RiskManager.maxPositionsMsg, RiskManager.confidenceMsg,
      toFixed1, numToString, sampleAnalysisLow, sampleConfigTight]
    decide

/-- C6 amended.  With confidence below `minConfidence` the gate always
rejects (`allowed = false`) whatever the portfolio state is — but the
*reason* is the confidence message only when the earlier checks pass. -/
theorem low_confidence_always_rejected (config : AgentConfig)
    (analysis : MarketAnalysis) (positions : List Position)
    (portfolio : PortfolioSummary)
    (hconf : analysis.confidence < config.minConfidence) :
    (RiskManager.canTakeNewPosition config analysis positions
        portfolio).allowed = false := by
  unfold RiskManager.canTakeNewPosition RiskManager.canTakeNewPositionRest
  by_cases h1 : positions.length ≥ config.maxPositions
  · simp [h1]
  · cases hf : positions.find?
        (fun p => p.marketId = analysis.market.condition_id) with
    | none => simp [h1, hf, hconf]
    | some p =>
        by_cases h2 : p.shares * p.currentPrice ≥ config.maxPositionSize
        · simp [h1, hf, h2]
        · simp [h1, hf, h2, hconf]

/-- Witness for C6's amended statement at confidence 0.45 < 0.5. -/
theorem low_confidence_always_rejected_witness :
    sampleAnalysisLow.confidence < sampleConfigTight.minConfidence ∧
    (RiskManager.canTakeNewPosition sampleConfigTight sampleAnalysisLow
        [samplePos] samplePortfolio).allowed = false :=
  ⟨by norm_num [sampleAnalysisLow, sampleConfigTight],
    low_confidence_always_rejected sampleConfigTight sampleAnalysisLow
      [samplePos] samplePortfolio
      (by norm_num [sampleAnalysisLow, sampleConfigTight])⟩

/-! ## Value strategy (C9) -/

/-- C9 counterexample.  `sampleMarketSkew` is inside the value band and its
NO side is strictly cheaper, yet the strategy signals `BUY_YES`: the side is
chosen by `yesPrice < 0.5`, not by comparing the two quoted prices. -/
theorem value_strategy_not_cheaper_side :
    |sampleMarketSkew.yesPrice - 0.5| < 0.15 ∧
    sampleMarketSkew.noPrice < sampleMarketSkew.yesPrice ∧
    (MarketAnalyzer.analyze sampleMarketSkew StrategyType.value 0).signal =
      Signal.BUY_YES := by
  refine ⟨?_, by norm_num [sampleMarketSkew], ?_⟩
  · rw [show |(sampleMarketSkew.yesPrice - 0.5 : ℚ)| = 0.05 by
      norm_num [sampleMarketSkew, abs_of_nonpos]]
    norm_num
  · have habs : |(1 : ℚ)/20| < 3/20 := by
      rw [abs_of_nonneg] <;> norm_num
    norm_num [MarketAnalyzer.analyze, MarketAnalyzer.analyzeValue,
      sampleMarketSkew, habs]

/-- C9 amended.  Inside the band the value strategy buys YES when
`yesPrice < 0.5` and NO otherwise, at confidence 0.55; outside the band it
holds. -/
theorem value_strategy_amended (m : EnrichedMarket) (rand : ℚ) :
    (|m.yesPrice - 0.5| < 0.15 →
      (MarketAnalyzer.analyze m StrategyType.value rand).signal =
        (if m.yesPrice < 0.5 then Signal.BUY_YES else Signal.BUY_NO) ∧
      (MarketAnalyzer.analyze m StrategyType.value rand).confidence = 0.55) ∧
    (0.15 ≤ |m.yesPrice - 0.5| →
      (MarketAnalyzer.analyze m StrategyType.value rand).signal =
        Signal.HOLD) := by
  constructor
  · intro hband
    constructor <;>
      simp [MarketAnalyzer.analyze, MarketAnalyzer.analyzeValue, hband]
  · intro hout
    have hnb : ¬ |m.yesPrice - 0.5| < 0.15 := not_lt.mpr hout
    simp [MarketAnalyzer.analyze, MarketAnalyzer.analyzeValue, hnb]

/-- Witness for C9's amended statement at `sampleMarketSkew`. -/
theorem value_strategy_amended_witness :
    |sampleMarketSkew.yesPrice - 0.5| < 0.15 ∧
    (MarketAnalyzer.analyze sampleMarketSkew StrategyType.value 0).signal =
      (if sampleMarketSkew.yesPrice < 0.5 then Signal.BUY_YES
       else Signal.BUY_NO) :=
  ⟨by
    rw [show |(sampleMarketSkew.yesPrice - 0.5 : ℚ)| = 0.05 by
      norm_num [sampleMarketSkew, abs_of_nonpos]]
    norm_num,
   ((value_strategy_amended sampleMarketSkew 0).1
      (by
        rw [show |(sampleMarketSkew.yesPrice - 0.5 : ℚ)| = 0.05 by
          norm_num [sampleMarketSkew, abs_of_nonpos]]
        norm_num)).1⟩

/-! ## A repeat buy also moves the mark (C10) -/

/-- C10.  When `addPosition` hits an existing key it also overwrites the
position's `currentPrice` with the new buy's price and recomputes
`unrealizedPnL = (price − newAvgPrice) × totalShares`, and stores the
updated record back under the key. -/
theorem repeat_buy_moves_mark (ps : PositionMap) (o : OrderRequest)
    (sh pr : ℚ) (newId : String) (now : ℕ) (p0 : Position)
    (hget : jsMapGet ps (PositionTracker.posKey o.marketId o.outcome) =
      some p0) :
    (PositionTracker.addPosition ps o sh pr newId now).1.currentPrice = pr ∧
    (PositionTracker.addPosition ps o sh pr newId now).1.unrealizedPnL =
      (pr - (p0.shares * p0.avgPrice + sh * pr) / (p0.shares + sh)) *
        (p0.shares + sh) ∧
    jsMapGet (PositionTracker.addPosition ps o sh pr newId now).2
        (PositionTracker.posKey o.marketId o.outcome) =
      some (PositionTracker.addPosition ps o sh pr newId now).1 := by
  refine ⟨?_, ?_, ?_⟩ <;>
    simp [PositionTracker.addPosition, hget, jsMapGet_set_self]

/-- Witness for C10 at a concrete repeat buy. -/
theorem repeat_buy_moves_mark_witness :
    jsMapGet [("m1-YES", samplePos)]
        (PositionTracker.posKey (sampleBuy 500 0.8).marketId
          (sampleBuy 500 0.8).outcome) = some samplePos ∧
    (PositionTracker.addPosition [("m1-YES", samplePos)] (sampleBuy 500 0.8)
        500 0.8 "P9" 7).1.currentPrice = 0.8 :=
  ⟨rfl,
    (repeat_buy_moves_mark [("m1-YES", samplePos)] (sampleBuy 500 0.8)
      500 0.8 "P9" 7 samplePos rfl).1⟩

/-! ## Serialization round trip (C7) -/

/-- Decoding a decimal digit character gives back the digit. -/
theorem charToDigit_digitChar (d : ℕ) (h : d < 10) :
    JsVal.charToDigit (Nat.digitChar d) = d := by
  interval_cases d <;> rfl

/-- The ISO timestamp rendering round-trips through `new Date(...)`. -/
theorem parseIso_isoOfTime (t : ℕ) :
    JsVal.parseIso (JsVal.isoOfTime t) = t := by
  unfold JsVal.parseIso JsVal.isoOfTime
  have hdata : (String.mk ((Nat.digits 10 t).reverse.map Nat.digitChar)).data
      = (Nat.digits 10 t).reverse.map Nat.digitChar := rfl
  rw [hdata, List.map_map]
  rw [List.map_congr_left (g := id) ?heach]
  · rw [List.map_id, List.reverse_reverse, Nat.ofDigits_digits]
  case heach =>
    intro d hd
    exact charToDigit_digitChar d
      (Nat.digits_lt_base (by norm_num) (List.mem_reverse.mp hd))

/-- Monadic bind on a ready `Except.ok` value. -/
theorem except_bind_ok {ε α β : Type} (x : α) (f : α → Except ε β) :
    (Except.ok x : Except ε α) >>= f = f x := rfl

/-- The `pure` in the `Except` monad. -/
theorem except_pure_eq_ok {ε α : Type} (x : α) :
    (pure x : Except ε α) = Except.ok x := rfl

/-- Restoring a serialized balance record yields the original runtime
value, `lastUpdated` included. -/
theorem balance_round_trip (b : VirtualBalance) (cur : JsVal) :
    BalanceManager.balanceRestore cur
      (some (BalanceManager.serializeBalance b)) =
        BalanceManager.balanceToJsVal b := by
  simp [BalanceManager.balanceRestore, BalanceManager.balanceRestoreE,
    BalanceManager.serializeBalance, BalanceManager.balanceToJsVal,
    JsVal.toJson, JsVal.toJsonFields, JsVal.objGetE, JsVal.spreadFields,
    jsMapGet, jsMapSet, JsVal.newDate, parseIso_isoOfTime, except_bind_ok]

/-- Restoring one serialized `[key, position]` entry yields the original
entry, `openedAt` included. -/
theorem restoreEntry_enc (k : String) (p : Position) :
    PositionTracker.restoreEntry
      (JsVal.toJson (.arr [.str k, PositionTracker.positionToJsVal p])) =
      Except.ok (.str k, PositionTracker.positionToJsVal p) := by
  simp [PositionTracker.restoreEntry, PositionTracker.destructurePair,
    PositionTracker.positionToJsVal, JsVal.toJson, JsVal.toJsonList,
    JsVal.toJsonFields, JsVal.objGetE, JsVal.spreadFields, jsMapGet,
    jsMapSet, JsVal.newDate, parseIso_isoOfTime, except_bind_ok, List.getD]

/-- The restore mapping succeeds on every serialized position list and
yields the original entries. -/
theorem positions_mapM (ps : PositionMap) :
    JsVal.jsArrayMapE PositionTracker.restoreEntry
      (JsVal.toJsonList (ps.map fun e =>
        JsVal.arr [.str e.1, PositionTracker.positionToJsVal e.2])) =
      Except.ok (PositionTracker.positionsToJsEntries ps) := by
  induction ps with
  | nil => rfl
  | cons e rest ih =>
      simp [JsVal.toJsonList, JsVal.jsArrayMapE, restoreEntry_enc, ih,
        PositionTracker.positionsToJsEntries, except_bind_ok,
        except_pure_eq_ok]

/-- The `Map.set` on a map whose keys all differ from `k` appends. -/
theorem jsMapSetBy_append {κ β : Type} (eqk : κ → κ → Bool)
    (l : List (κ × β)) (k : κ) (v : β)
    (h : ∀ e ∈ l, eqk e.1 k = false) :
    jsMapSetBy eqk l k v = l ++ [(k, v)] := by
  induction l with
  | nil => rfl
  | cons e rest ih =>
      simp only [jsMapSetBy, h e (List.mem_cons_self e rest),
        Bool.false_eq_true, if_false, List.cons_append, List.cons.injEq,
        true_and]
      exact ih fun e' he' => h e' (List.mem_cons_of_mem _ he')

/-- Rebuilding a `Map` from entries with pairwise-distinct keys reproduces
the entry list. -/
theorem foldl_jsMapSetBy {κ β : Type} (eqk : κ → κ → Bool) :
    ∀ (l acc : List (κ × β)),
      (∀ e ∈ l, ∀ a ∈ acc, eqk a.1 e.1 = false) →
      ((l.map Prod.fst).Pairwise fun a b => eqk a b = false) →
      l.foldl (fun m e => jsMapSetBy eqk m e.1 e.2) acc = acc ++ l := by
  intro l
  induction l with
  | nil => intro acc _ _; simp
  | cons e rest ih =>
      intro acc hacc hpw
      simp only [List.map_cons, List.pairwise_cons] at hpw
      simp only [List.foldl_cons]
      rw [jsMapSetBy_append eqk acc e.1 e.2
        (fun a ha => hacc e (List.mem_cons_self e rest) a ha)]
      rw [ih (acc ++ [e]) ?hx hpw.2]
      · simp
      case hx =>
        intro e' he' a ha
        rcases List.mem_append.mp ha with hmem | hmem
        · exact hacc e' (List.mem_cons_of_mem _ he') a hmem
        · have ha' : a = e := by simpa using hmem
          subst ha'
          exact hpw.1 e'.1 (List.mem_map_of_mem Prod.fst he')

/-- With unique string keys, the serialized entries have pairwise
`beq`-distinct runtime keys. -/
theorem positionsToJsEntries_pairwise (ps : PositionMap)
    (h : (ps.map Prod.fst).Nodup) :
    ((PositionTracker.positionsToJsEntries ps).map Prod.fst).Pairwise
      (fun a b => JsVal.sameValue a b = false) := by
  have hmap : (PositionTracker.positionsToJsEntries ps).map Prod.fst =
      ps.map (fun e => JsVal.str e.1) := by
    simp [PositionTracker.positionsToJsEntries, List.map_map]
  rw [hmap, List.pairwise_map]
  have hnd : ps.Pairwise (fun a b => a.1 ≠ b.1) := List.pairwise_map.mp h
  refine hnd.imp ?_
  intro a b hne
  simp only [JsVal.sameValue, beq_eq_false_iff_ne, ne_eq]
  exact hne

/-- Restoring a serialized position map with unique keys yields the
original entries in order. -/
theorem positions_round_trip (ps : PositionMap)
    (cur : List (JsVal × JsVal)) (h : (ps.map Prod.fst).Nodup) :
    PositionTracker.positionsRestore cur
      (some (PositionTracker.serializePositions ps)) =
        PositionTracker.positionsToJsEntries ps := by
  simp only [PositionTracker.positionsRestore,
    PositionTracker.positionsRestoreE, PositionTracker.serializePositions,
    JsVal.toJson]
  rw [positions_mapM]
  exact (foldl_jsMapSetBy JsVal.sameValue (PositionTracker.positionsToJsEntries ps)
    [] (by simp) (positionsToJsEntries_pairwise ps h)).trans (by simp)

/-- Restoring one serialized trade record yields the original record,
timestamp included. -/
theorem restoreTradeElem_enc (t : Trade) :
    TradeExecutor.restoreTradeElem
      (JsVal.obj (JsVal.toJsonFields (TradeExecutor.tradeFields t))) =
      Except.ok (JsVal.obj (TradeExecutor.tradeFields t)) := by
  cases hrp : t.realizedPnL with
  | none =>
      simp [TradeExecutor.restoreTradeElem, TradeExecutor.tradeFields, hrp,
        JsVal.toJson, JsVal.toJsonFields, JsVal.objGetE, JsVal.spreadFields,
        jsMapGet, jsMapSet, JsVal.newDate, parseIso_isoOfTime, except_bind_ok]
  | some q =>
      simp [TradeExecutor.restoreTradeElem, TradeExecutor.tradeFields, hrp,
        JsVal.toJson, JsVal.toJsonFields, JsVal.objGetE, JsVal.spreadFields,
        jsMapGet, jsMapSet, JsVal.newDate, parseIso_isoOfTime, except_bind_ok]

/-- The restore mapping succeeds on every serialized trade history and
yields the original records. -/
theorem trades_mapM (ts : List Trade) :
    JsVal.jsArrayMapE TradeExecutor.restoreTradeElem
      (JsVal.toJsonList (ts.map TradeExecutor.tradeToJsVal)) =
      Except.ok (ts.map TradeExecutor.tradeToJsVal) := by
  induction ts with
  | nil => rfl
  | cons t rest ih =>
      simp only [List.map_cons, TradeExecutor.tradeToJsVal,
        JsVal.toJsonList, JsVal.toJson, JsVal.jsArrayMapE,
        restoreTradeElem_enc, except_bind_ok, ih, except_pure_eq_ok]

/-- Restoring a serialized trade history yields the original records. -/
theorem trades_round_trip (ts : List Trade) (cur : List JsVal) :
    TradeExecutor.tradesRestore cur
      (some (TradeExecutor.serializeTrades ts)) =
        TradeExecutor.tradesToJsList ts := by
  simp only [TradeExecutor.tradesRestore, TradeExecutor.tradesRestoreE,
    TradeExecutor.serializeTrades, TradeExecutor.tradesToJsList,
    JsVal.toJson]
  rw [trades_mapM]

/-- C7.  `restore(serialize(x)) = x` for each of the three components
independently: the balance record including `lastUpdated`, the position map
(whose keys, coming from a JS `Map`, are unique) including `openedAt`, and
the trade history including timestamps. -/
theorem serialization_round_trip :
    (∀ (b : VirtualBalance) (cur : JsVal),
        BalanceManager.balanceRestore cur
          (some (BalanceManager.serializeBalance b)) =
            BalanceManager.balanceToJsVal b) ∧
    (∀ (ps : PositionMap) (cur : List (JsVal × JsVal)),
        (ps.map Prod.fst).Nodup →
        PositionTracker.positionsRestore cur
          (some (PositionTracker.serializePositions ps)) =
            PositionTracker.positionsToJsEntries ps) ∧
    (∀ (ts : List Trade) (cur : List JsVal),
        TradeExecutor.tradesRestore cur
          (some (TradeExecutor.serializeTrades ts)) =
            TradeExecutor.tradesToJsList ts) :=
  ⟨balance_round_trip, positions_round_trip, trades_round_trip⟩

/-- Witness for C7 on a one-position map with (trivially) unique keys. -/
theorem serialization_round_trip_witness :
    ([("m1-YES", samplePos)].map Prod.fst).Nodup ∧
    PositionTracker.positionsRestore []
      (some (PositionTracker.serializePositions [("m1-YES", samplePos)])) =
        PositionTracker.positionsToJsEntries [("m1-YES", samplePos)] :=
  ⟨by simp,
    serialization_round_trip.2.1 [("m1-YES", samplePos)] [] (by simp)⟩

/-! ## Restore error handling (C8) -/

/-- Monadic bind on a thrown `Except.error`. -/
theorem except_bind_error {ε α β : Type} (e : ε) (f : α → Except ε β) :
    (Except.error e : Except ε α) >>= f = Except.error e := rfl

/-- C8 counterexample.  A bundle whose `balance` sub-blob is the *parsable*
string `"0"` is malformed (not the serialized shape), yet the restore does
not keep the prior balance: it overwrites it with
`{ lastUpdated: Invalid Date }`, losing the cash record. -/
theorem restore_malformed_subfield_corrupts :
    (PortfolioManager.portfolioRestore sampleJp samplePortfolioJsState
        (some sampleBundleBad)).balance =
      JsVal.obj [("lastUpdated", JsVal.invalidDate)] ∧
    (PortfolioManager.portfolioRestore sampleJp samplePortfolioJsState
        (some sampleBundleBad)).balance ≠ samplePortfolioJsState.balance := by
  have hval : (PortfolioManager.portfolioRestore sampleJp
      samplePortfolioJsState (some sampleBundleBad)).balance =
        JsVal.obj [("lastUpdated", JsVal.invalidDate)] := by
    simp [PortfolioManager.portfolioRestore,
      PortfolioManager.portfolioRestoreE, PortfolioManager.subParse,
      PortfolioManager.coerceToString, sampleJp, sampleBundleBad,
      samplePortfolioJsState, JsVal.objGetE, JsVal.truthy, jsMapGet,
      jsMapSet, JsVal.spreadFields, JsVal.newDate,
      BalanceManager.balanceRestore, BalanceManager.balanceRestoreE,
      BalanceManager.balanceToJsVal, except_bind_ok, numToString]
  refine ⟨hval, ?_⟩
  rw [hval]
  simp [samplePortfolioJsState, BalanceManager.balanceToJsVal]

/-- C8 amended.  `restore` never lets a throw escape: an unparsable bundle,
a `null` or `undefined` bundle, or any internal shape error is caught and
the prior state kept.  Componentwise, a sub-component keeps its pre-restore
value whenever its sub-field is *missing* or its sub-blob is a string that
*fails to parse* — independently of what the other sub-fields contain;
however a parsable sub-blob of the wrong shape may overwrite that component
(see the counterexample). -/
theorem restore_atomicity_amended (jp : String → Option JsVal)
    (cur : PortfolioManager.PortfolioJsState) :
    (PortfolioManager.portfolioRestore jp cur none = cur) ∧
    (PortfolioManager.portfolioRestore jp cur (some JsVal.null) = cur) ∧
    (PortfolioManager.portfolioRestore jp cur (some JsVal.undefined) = cur) ∧
    (∀ l : List (String × JsVal),
      (jsMapGet l "balance" = none →
        (PortfolioManager.portfolioRestore jp cur
          (some (JsVal.obj l))).balance = cur.balance) ∧
      (∀ s, jsMapGet l "balance" = some (JsVal.str s) → jp s = none →
        (PortfolioManager.portfolioRestore jp cur
          (some (JsVal.obj l))).balance = cur.balance) ∧
      (jsMapGet l "positions" = none →
        (PortfolioManager.portfolioRestore jp cur
          (some (JsVal.obj l))).positions = cur.positions) ∧
      (∀ s, jsMapGet l "positions" = some (JsVal.str s) → jp s = none →
        (PortfolioManager.portfolioRestore jp cur
          (some (JsVal.obj l))).positions = cur.positions) ∧
      (jsMapGet l "trades" = none →
        (PortfolioManager.portfolioRestore jp cur
          (some (JsVal.obj l))).trades = cur.trades) ∧
      (∀ s, jsMapGet l "trades" = some (JsVal.str s) → jp s = none →
        (PortfolioManager.portfolioRestore jp cur
          (some (JsVal.obj l))).trades = cur.trades)) := by
  refine ⟨rfl, rfl, rfl, ?_⟩
  intro l
  refine ⟨?_, ?_, ?_, ?_, ?_, ?_⟩
  · intro hb
    simp only [PortfolioManager.portfolioRestore,
      PortfolioManager.portfolioRestoreE, JsVal.objGetE, except_bind_ok, hb]
    cases hpos : jsMapGet l "positions" <;>
      cases htr : jsMapGet l "trades" <;>
        simp [hpos, htr] <;> split_ifs <;> rfl
  · intro s hb hjp
    simp only [PortfolioManager.portfolioRestore,
      PortfolioManager.portfolioRestoreE, JsVal.objGetE, except_bind_ok, hb,
      PortfolioManager.subParse, PortfolioManager.coerceToString, hjp,
      BalanceManager.balanceRestore, BalanceManager.balanceRestoreE]
    cases hpos : jsMapGet l "positions" <;>
      cases htr : jsMapGet l "trades" <;>
        simp [hpos, htr] <;> split_ifs <;> rfl
  · intro hp
    simp only [PortfolioManager.portfolioRestore,
      PortfolioManager.portfolioRestoreE, JsVal.objGetE, except_bind_ok, hp]
    cases hbal : jsMapGet l "balance" <;>
      cases htr : jsMapGet l "trades" <;>
        simp [hbal, htr] <;> split_ifs <;> rfl
  · intro s hp hjp
    simp only [PortfolioManager.portfolioRestore,
      PortfolioManager.portfolioRestoreE, JsVal.objGetE, except_bind_ok, hp,
      PortfolioManager.subParse, PortfolioManager.coerceToString, hjp,
      PositionTracker.positionsRestore, PositionTracker.positionsRestoreE]
    cases hbal : jsMapGet l "balance" <;>
      cases htr : jsMapGet l "trades" <;>
        simp [hbal, htr] <;> split_ifs <;> rfl
  · intro ht
    simp only [PortfolioManager.portfolioRestore,
      PortfolioManager.portfolioRestoreE, JsVal.objGetE, except_bind_ok, ht]
    cases hbal : jsMapGet l "balance" <;>
      cases hpos : jsMapGet l "positions" <;>
        simp [hbal, hpos] <;> split_ifs <;> rfl
  · intro s ht hjp
    simp only [PortfolioManager.portfolioRestore,
      PortfolioManager.portfolioRestoreE, JsVal.objGetE, except_bind_ok, ht,
      PortfolioManager.subParse, PortfolioManager.coerceToString, hjp,
      TradeExecutor.tradesRestore, TradeExecutor.tradesRestoreE]
    cases hbal : jsMapGet l "balance" <;>
      cases hpos : jsMapGet l "positions" <;>
        simp [hbal, hpos] <;> split_ifs <;> rfl

/-- Witness for C8's amended statement: an empty bundle object leaves the
balance untouched. -/
theorem restore_atomicity_amended_witness :
    jsMapGet ([] : List (String × JsVal)) "balance" = none ∧
    (PortfolioManager.portfolioRestore sampleJp samplePortfolioJsState
        (some (JsVal.obj []))).balance = samplePortfolioJsState.balance :=
  ⟨rfl,
    ((restore_atomicity_amended sampleJp samplePortfolioJsState).2.2.2 []).1
      rfl⟩

end PaperTrading
